import Mathlib

/-!
Shallow embedding of the Codeforces API wrapper (`cfapi.py`).

The embedding models the request-construction layer (`_to_http`,
`_sorted_str_kwargs`, `_get_url`, `_url_api_request`), the JSON-to-record
mapping layer (`CodeforcesResponse.__init__` and the record subclasses that
override it), and the method-surface functions the claims are about
(`user_info`, `contest_standings`, `problemset_recentStatus`).

Modelling conventions:
* Python values passed as query parameters are `None`, scalars (str, int,
  bool) or lists of scalars; this is the exact value domain used by the
  wrapper's call sites.  `str()` on an int prints a decimal integer and on a
  bool prints `True`/`False`, which `pyStrScalar` mirrors.
* Python's `sorted` on strings compares lexicographically by Unicode code
  points; `strKeyLe` is that order (`List Char` carries exactly this
  lexicographic order in Mathlib, with `Char` ordered by code point).
* Python dict item assignment (`kwargs['lang'] = ...`) replaces the value
  in place when the key is present and appends otherwise; `dictSet` is that
  operation on association lists.  `items()` iteration order is the
  resulting list order.
* The external collaborators `hashlib.sha512(...).hexdigest()`,
  `time.time()` and the `SystemRandom` nonce are inputs of the embedding:
  the hex digest is an explicit function argument `sha512hex`, the
  timestamp and the nonce are explicit arguments.  The wrapper composes
  them; their internals are outside this repository.
* JSON numbers appearing in responses are modelled as integers; no claim
  depends on fractional values.
-/

namespace Cfapi

/-- A Python scalar value as used for query parameters: `str`, `int` or
`bool`. -/
inductive PyScalar where
  | str (s : String)
  | int (n : Int)
  | bool (b : Bool)

/-- A Python value passed as a keyword argument of the request layer:
`None`, a scalar, or a list of scalars. -/
inductive PyVal where
  | vNone
  | vScalar (v : PyScalar)
  | vList (l : List PyScalar)

/-- `value is None` test from `_sorted_str_kwargs`. -/
def PyVal.isNone : PyVal → Bool
  | .vNone => true
  | _ => false

/-- Python `str()` on a scalar: a string is itself, an int prints in
decimal, a bool prints `True` or `False`. -/
def pyStrScalar : PyScalar → String
  | .str s => s
  | .int n => toString n
  | .bool b => if b then "True" else "False"

/-- The string order used by Python's `sorted` on `str`: lexicographic
comparison of the code-point sequences. -/
def strKeyLe (a b : String) : Prop := a.data ≤ b.data

instance : DecidableRel strKeyLe :=
  fun a b => inferInstanceAs (Decidable (a.data ≤ b.data))

instance : IsTotal String strKeyLe := ⟨fun a b => le_total a.data b.data⟩

instance : IsTrans String strKeyLe := ⟨fun _ _ _ h₁ h₂ => le_trans h₁ h₂⟩

instance : IsAntisymm String strKeyLe :=
  ⟨fun a b h₁ h₂ => by
    cases a; cases b
    exact congrArg String.mk (le_antisymm h₁ h₂)⟩

/-- `CodeforcesAPI._to_http`: convert a parameter and its value into
`param=value`; a list value is `;`-joined from the `str()` of its
elements, any other value is its `str()`. -/
def toHttp (param : String) (value : PyVal) : String :=
  match value with
  | .vList l => param ++ "=" ++ String.intercalate ";" (l.map pyStrScalar)
  | .vScalar v => param ++ "=" ++ pyStrScalar v
  | .vNone => param ++ "=" ++ "None"

/-- `CodeforcesAPI._sorted_str_kwargs`: drop the parameters whose value is
`None`, convert the rest with `_to_http`, and sort the resulting pair
strings lexicographically. -/
def sortedStrKwargs (kwargs : List (String × PyVal)) : List String :=
  List.insertionSort strKeyLe
    ((kwargs.filter (fun p => !p.2.isNone)).map (fun p => toHttp p.1 p.2))

/-- `CodeforcesAPI._get_url`: `&`-join of the sorted pair strings. -/
def getUrl (kwargs : List (String × PyVal)) : String :=
  String.intercalate "&" (sortedStrKwargs kwargs)

/-- Python dict item assignment `d[k] = v` on an association list: replace
the value in place when the key is present, append otherwise. -/
def dictSet (d : List (String × α)) (k : String) (v : α) : List (String × α) :=
  if d.any (fun p => p.1 == k) then
    d.map (fun p => if p.1 == k then (k, v) else p)
  else
    d ++ [(k, v)]

/-- The configuration of a `CodeforcesAPI` instance: optional key and
secret, and the language (validated to be `en` or `ru` by the `lang`
setter; the claims quantify over the stored value). -/
structure CodeforcesAPI where
  key : Option String
  secret : Option String
  lang : String

/-- `string.ascii_lowercase + string.digits`, the alphabet the 6-character
nonce is drawn from. -/
def nonceAlphabet : String := "abcdefghijklmnopqrstuvwxyz0123456789"

/-- `CodeforcesAPI._url_api_request`: add `lang`; when both key and secret
are configured also add `time` and `apiKey`, compute
`apiSig = nonce ++ sha512hex(nonce + "/" + method + "?" + canonical-query
+ "#" + secret)`, store it in the kwargs, and return the canonical
encoding of the resulting kwargs.  The hex digest, the unix timestamp and
the nonce produced by `SystemRandom` are explicit arguments. -/
def urlApiRequest (api : CodeforcesAPI) (sha512hex : String → String)
    (timestamp : Int) (nonce : String) (method : String)
    (kwargs : List (String × PyVal)) : String :=
  let kwargs₁ := dictSet kwargs "lang" (.vScalar (.str api.lang))
  match api.key, api.secret with
  | some key, some secret =>
    let kwargs₂ := dictSet (dictSet kwargs₁ "time" (.vScalar (.int timestamp)))
        "apiKey" (.vScalar (.str key))
    let sig := nonce ++ sha512hex (nonce ++ "/" ++ method ++ "?" ++
        getUrl kwargs₂ ++ "#" ++ secret)
    getUrl (dictSet kwargs₂ "apiSig" (.vScalar (.str sig)))
  | _, _ => getUrl kwargs₁


/-- A JSON value as delivered by the service (numbers are modelled as
integers; no claim depends on fractional values). -/
inductive Json where
  | null
  | bool (b : Bool)
  | num (n : Int)
  | str (s : String)
  | arr (elems : List Json)
  | obj (fields : List (String × Json))

/-- The value of an attribute of a constructed record: either the raw JSON
value copied by `CodeforcesResponse.__init__`, or a nested record produced
by recursive wrapping, or a list of nested records. -/
inductive RVal where
  | raw (j : Json)
  | wrapped (attrs : List (String × RVal))
  | wlist (l : List (List (String × RVal)))

/-- The attribute map of a constructed record object. -/
abbrev Attrs := List (String × RVal)

/-- Attribute lookup on an object: the first binding of the key (the
attribute maps built here keep keys unique, so first = only). -/
def lookupFirst (l : List (String × α)) (k : String) : Option α :=
  match l with
  | [] => none
  | (k₁, v) :: rest => if k₁ == k then some v else lookupFirst rest k

/-- Lookup of the last binding of a key: the value a key holds after the
entries of an association list are written left to right (Python dict
construction and the `setattr` loop both give later bindings precedence). -/
def lookupLast (l : List (String × α)) (k : String) : Option α :=
  match l with
  | [] => none
  | (k₁, v) :: rest =>
    match lookupLast rest k with
    | some v₂ => some v₂
    | none => if k₁ == k then some v else none

/-- `CodeforcesResponse.__init__`: `setattr(self, name, value)` for every
item of the JSON mapping, i.e. fold Python attribute assignment (replace
or append) over the items. -/
def CodeforcesResponse.init (json : List (String × Json)) : Attrs :=
  json.foldl (fun attrs kv => dictSet attrs kv.1 (RVal.raw kv.2)) []

/-- Constructing a plain record (no `__init__` override) from a JSON
value: the argument must be a mapping, whose items are copied; any other
value makes `json.items()` raise. -/
def objAttrs : Json → Option Attrs
  | .obj fields => some (CodeforcesResponse.init fields)
  | _ => none

/-- `User(json)`: no override, generic field copy. -/
def User.init : Json → Option Attrs := objAttrs

/-- `BlogEntry(json)`: no override, generic field copy. -/
def BlogEntry.init : Json → Option Attrs := objAttrs

/-- `Comment(json)`: no override, generic field copy. -/
def Comment.init : Json → Option Attrs := objAttrs

/-- `Contest(json)`: no override, generic field copy. -/
def Contest.init : Json → Option Attrs := objAttrs

/-- `Member(json)`: no override, generic field copy. -/
def Member.init : Json → Option Attrs := objAttrs

/-- `Problem(json)`: no override, generic field copy. -/
def Problem.init : Json → Option Attrs := objAttrs

/-- `ProblemResult(json)`: no override, generic field copy. -/
def ProblemResult.init : Json → Option Attrs := objAttrs

/-- Python iteration over a JSON value: a list yields its elements, a
string yields its characters (as one-character strings), a mapping yields
its keys; any other value is not iterable. -/
def pyIter : Json → Option (List Json)
  | .arr elems => some elems
  | .str s => some (s.data.map (fun c => Json.str (String.singleton c)))
  | .obj fields => some (fields.map (fun kv => Json.str kv.1))
  | _ => none

/-- Collect a list of optional results, failing if any element failed
(the wrapping loop of `list(map(...))` raises on the first failure). -/
def allSome : List (Option α) → Option (List α)
  | [] => some []
  | none :: _ => none
  | some a :: rest =>
    match allSome rest with
    | some l => some (a :: l)
    | none => none

/-- `list(map(w, v))` for a wrapping constructor `w`: iterate `v` and wrap
every element, failing if `v` is not iterable or any element fails. -/
def pyListMap (w : Json → Option α) (v : Json) : Option (List α) :=
  match pyIter v with
  | some elems => allSome (elems.map w)
  | none => none

/-- `Party(json)`: generic field copy, then
`self.members = list(map(Member, self.members))` — an `AttributeError`
when `members` is absent, and a failure when it is present but not an
iterable of mappings. -/
def Party.init (j : Json) : Option Attrs :=
  match j with
  | .obj fields =>
    let base := CodeforcesResponse.init fields
    match lookupLast fields "members" with
    | some mv =>
      match pyListMap Member.init mv with
      | some ms => some (dictSet base "members" (RVal.wlist ms))
      | none => none
    | none => none
  | _ => none

/-- `RecentAction(json)`: generic field copy, then wrap `blogEntry` into a
`BlogEntry` when that attribute is present, and `comment` into a `Comment`
when that attribute is present. -/
def RecentAction.init (j : Json) : Option Attrs :=
  match j with
  | .obj fields =>
    let base := CodeforcesResponse.init fields
    let afterBlog : Option Attrs :=
      match lookupLast fields "blogEntry" with
      | some bv =>
        match BlogEntry.init bv with
        | some b => some (dictSet base "blogEntry" (RVal.wrapped b))
        | none => none
      | none => some base
    match afterBlog with
    | some a₁ =>
      match lookupLast fields "comment" with
      | some cv =>
        match Comment.init cv with
        | some c => some (dictSet a₁ "comment" (RVal.wrapped c))
        | none => none
      | none => some a₁
    | none => none
  | _ => none

/-- `Submission(json)`: generic field copy, then
`self.problem = Problem(self.problem)` and
`self.author = Party(self.author)`. -/
def Submission.init (j : Json) : Option Attrs :=
  match j with
  | .obj fields =>
    let base := CodeforcesResponse.init fields
    match lookupLast fields "problem" with
    | some pv =>
      match Problem.init pv with
      | some p =>
        match lookupLast fields "author" with
        | some av =>
          match Party.init av with
          | some a =>
            some (dictSet (dictSet base "problem" (RVal.wrapped p))
              "author" (RVal.wrapped a))
          | none => none
        | none => none
      | none => none
    | none => none
  | _ => none

/-- `RanklistRow(json)`: generic field copy, then
`self.party = Party(self.party)` and
`self.problemResults = list(map(ProblemResult, self.problemResults))`. -/
def RanklistRow.init (j : Json) : Option Attrs :=
  match j with
  | .obj fields =>
    let base := CodeforcesResponse.init fields
    match lookupLast fields "party" with
    | some pv =>
      match Party.init pv with
      | some p =>
        match lookupLast fields "problemResults" with
        | some rv =>
          match pyListMap ProblemResult.init rv with
          | some rs =>
            some (dictSet (dictSet base "party" (RVal.wrapped p))
              "problemResults" (RVal.wlist rs))
          | none => none
        | none => none
      | none => none
    | none => none
  | _ => none


/-- A value returned by a method-surface call: a single record or a
(possibly nested) Python list. -/
inductive PyRet where
  | record (attrs : Attrs)
  | list (elems : List PyRet)

/-- An exception raised by a method-surface call: `TypeError` with its
message for the explicit parameter-validation checks, or a failure raised
while wrapping the service result into records (an `AttributeError` or
`TypeError` from the record constructors, whose message no claim
depends on). -/
inductive PyError where
  | typeError (msg : String)
  | wrapError

/-- Dict subscript `result[k]` on a JSON value. -/
def jsonGet (j : Json) (k : String) : Option Json :=
  match j with
  | .obj fields => lookupLast fields k
  | _ => none

/-- `CodeforcesAPI.user_info`: wrap a single string handle into a list,
validate the 10000-handle cap, then (on the service result, a JSON list)
return a single `User` when the result has exactly one element and a list
of `User` otherwise.  The validation `TypeError` message reproduces the
source string, including the spaces a backslash line continuation embeds
in it. -/
def user_info (handles : String ⊕ List String) (result : List Json) :
    Except PyError PyRet :=
  let hs : List String := match handles with | .inl s => [s] | .inr l => l
  if hs.length > 10000 then
    .error (.typeError ("handles len is " ++ toString hs.length ++
      ".                              Maximum: 10000"))
  else
    match result with
    | [r] =>
      match User.init r with
      | some u => .ok (.record u)
      | none => .error .wrapError
    | rs =>
      match allSome (rs.map User.init) with
      | some us => .ok (.list (us.map PyRet.record))
      | none => .error .wrapError

/-- The return shaping of `CodeforcesAPI.contest_standings`:
`[Contest(result['contest']), list(map(Problem, result['problems'])),
list(map(RanklistRow, result['rows']))]`. -/
def contestStandingsReturn (result : Json) : Except PyError PyRet :=
  match jsonGet result "contest", jsonGet result "problems",
      jsonGet result "rows" with
  | some cj, some pj, some rj =>
    match Contest.init cj, pyListMap Problem.init pj,
        pyListMap RanklistRow.init rj with
    | some c, some ps, some rs =>
      .ok (.list [.record c, .list (ps.map PyRet.record),
        .list (rs.map PyRet.record)])
    | _, _, _ => .error .wrapError
  | _, _, _ => .error .wrapError

/-- `CodeforcesAPI.contest_standings`: wrap a single string `handles` into
a list, validate the 10000-handle cap, issue the request (the query is
modelled by `urlApiRequest`), and shape the service result with
`contestStandingsReturn`.  Parameters not used by validation or shaping
only feed the request query. -/
def contest_standings (contestId : Int) (from_row : Option Int)
    (count : Option Int) (handles : Option (String ⊕ List String))
    (room : Option Int) (showUnofficial : Option Bool) (result : Json) :
    Except PyError PyRet :=
  let handlesList : Option (List String) :=
    match handles with
    | some (.inl s) => some [s]
    | some (.inr l) => some l
    | none => none
  match handlesList with
  | some hs =>
    if hs.length > 10000 then
      .error (.typeError ("handles len is " ++ toString hs.length ++
        ".                             Maximum: 10000"))
    else contestStandingsReturn result
  | none => contestStandingsReturn result

/-- `CodeforcesAPI.problemset_recentStatus`: validate `count <= 1000`
before any request is issued (the validation outcome does not depend on
the service result), then wrap the result elements into `Submission`
records. -/
def problemset_recentStatus (count : Int) (problemsetName : Option String)
    (result : List Json) : Except PyError PyRet :=
  if count > 1000 then
    .error (.typeError ("count is " ++ toString count ++ ". Maximim: 1000"))
  else
    match allSome (result.map Submission.init) with
    | some subs => .ok (.list (subs.map PyRet.record))
    | none => .error .wrapError

/-- The kwargs after the signer injected `lang`, `time` and `apiKey`
(the mapping whose canonical encoding is fed into the signature hash). -/
def signedKwargs (lang : String) (t : Int) (key : String)
    (kwargs : List (String × PyVal)) : List (String × PyVal) :=
  dictSet (dictSet (dictSet kwargs "lang" (.vScalar (.str lang)))
    "time" (.vScalar (.int t))) "apiKey" (.vScalar (.str key))

/-- The signature string: the nonce followed by the hex digest of
`nonce + "/" + method + "?" + query + "#" + secret`. -/
def apiSigString (sha512hex : String → String)
    (nonce method query secret : String) : String :=
  nonce ++ sha512hex (nonce ++ "/" ++ method ++ "?" ++ query ++ "#" ++ secret)

section Lemmas

variable {α : Type}

lemma lookupFirst_eq_none_of_any_eq_false {d : List (String × α)} {k : String}
    (h : d.any (fun p => p.1 == k) = false) : lookupFirst d k = none := by
  induction d with
  | nil => rfl
  | cons hd tl ih =>
    obtain ⟨k₁, v⟩ := hd
    simp only [List.any_cons, Bool.or_eq_false_iff] at h
    simp only [lookupFirst, h.1, Bool.false_eq_true, if_false]
    exact ih h.2

lemma lookupFirst_append {d e : List (String × α)} {k : String} :
    lookupFirst (d ++ e) k =
      match lookupFirst d k with
      | some v => some v
      | none => lookupFirst e k := by
  induction d with
  | nil => rfl
  | cons hd tl ih =>
    obtain ⟨k₁, v⟩ := hd
    by_cases h : (k₁ == k) = true
    · simp [lookupFirst, h]
    · simp only [List.cons_append, lookupFirst, h, Bool.false_eq_true, if_false]
      exact ih

lemma lookupFirst_map_replace {d : List (String × α)} {k : String} {v : α}
    (h : d.any (fun p => p.1 == k) = true) :
    lookupFirst (d.map (fun p => if p.1 == k then (k, v) else p)) k = some v := by
  induction d with
  | nil => simp at h
  | cons hd tl ih =>
    obtain ⟨k₁, v₁⟩ := hd
    simp only [List.any_cons] at h
    simp only [List.map_cons]
    cases hbe : (k₁ == k) with
    | true =>
      have he : (if (true = true) then (k, v) else (k₁, v₁)) = (k, v) := if_pos rfl
      rw [he]
      simp [lookupFirst]
    | false =>
      have he : (if (false = true) then (k, v) else (k₁, v₁)) = (k₁, v₁) :=
        if_neg (by simp)
      rw [he]
      simp only [lookupFirst, hbe, Bool.false_eq_true, if_false]
      simp only [hbe, Bool.false_or] at h
      exact ih h

lemma lookupFirst_map_replace_ne {d : List (String × α)} {k k' : String} {v : α}
    (hne : k' ≠ k) :
    lookupFirst (d.map (fun p => if p.1 == k then (k, v) else p)) k' =
      lookupFirst d k' := by
  induction d with
  | nil => rfl
  | cons hd tl ih =>
    obtain ⟨k₁, v₁⟩ := hd
    simp only [List.map_cons]
    cases hbe : (k₁ == k) with
    | true =>
      have hkk : k₁ = k := by simpa using hbe
      have he : (if (true = true) then (k, v) else (k₁, v₁)) = (k, v) := if_pos rfl
      rw [he]
      simp only [lookupFirst, beq_eq_false_iff_ne.mpr (Ne.symm hne), hkk,
        Bool.false_eq_true, if_false]
      exact ih
    | false =>
      have he : (if (false = true) then (k, v) else (k₁, v₁)) = (k₁, v₁) :=
        if_neg (by simp)
      rw [he]
      simp only [lookupFirst]
      cases hbe' : (k₁ == k') with
      | true => rfl
      | false =>
        simp only [Bool.false_eq_true, if_false]
        exact ih

lemma lookupFirst_dictSet_self (d : List (String × α)) (k : String) (v : α) :
    lookupFirst (dictSet d k v) k = some v := by
  unfold dictSet
  split
  · exact lookupFirst_map_replace (by assumption)
  · rename_i h
    have hf : d.any (fun p => p.1 == k) = false := by
      cases hb : d.any (fun p => p.1 == k) with
      | true => exact absurd hb h
      | false => rfl
    rw [lookupFirst_append, lookupFirst_eq_none_of_any_eq_false hf]
    simp [lookupFirst]

lemma lookupFirst_dictSet_ne (d : List (String × α)) {k k' : String} (v : α)
    (hne : k' ≠ k) :
    lookupFirst (dictSet d k v) k' = lookupFirst d k' := by
  unfold dictSet
  split
  · exact lookupFirst_map_replace_ne hne
  · rw [lookupFirst_append]
    cases h : lookupFirst d k' with
    | some w => rfl
    | none => simp [lookupFirst, beq_eq_false_iff_ne.mpr (Ne.symm hne)]

lemma mem_dictSet_self (d : List (String × α)) (k : String) (v : α) :
    (k, v) ∈ dictSet d k v := by
  unfold dictSet
  split
  · rename_i h
    rw [List.any_eq_true] at h
    obtain ⟨p, hp, hpk⟩ := h
    exact List.mem_map.mpr ⟨p, hp, by simp [hpk]⟩
  · simp

lemma lookupFirst_foldl_dictSet (json : List (String × Json)) :
    ∀ (acc : Attrs) (k : String),
      lookupFirst (json.foldl
          (fun attrs kv => dictSet attrs kv.1 (RVal.raw kv.2)) acc) k =
        match lookupLast json k with
        | some v => some (RVal.raw v)
        | none => lookupFirst acc k := by
  induction json with
  | nil => intro acc k; rfl
  | cons hd tl ih =>
    intro acc k
    obtain ⟨k₁, v₁⟩ := hd
    rw [List.foldl_cons, ih]
    cases h : lookupLast tl k with
    | some v => simp [lookupLast, h]
    | none =>
      simp only [lookupLast, h]
      by_cases hk : (k₁ == k) = true
      · have hkk : k₁ = k := by simpa using hk
        subst hkk
        simp [lookupFirst_dictSet_self]
      · have hne : k ≠ k₁ := fun e => hk (by simp [e])
        rw [lookupFirst_dictSet_ne _ _ hne]
        simp [hk]

lemma lookupFirst_init (json : List (String × Json)) (k : String) :
    lookupFirst (CodeforcesResponse.init json) k =
      (lookupLast json k).map RVal.raw := by
  unfold CodeforcesResponse.init
  rw [lookupFirst_foldl_dictSet]
  cases lookupLast json k <;> rfl

lemma allSome_of_forall_isSome : ∀ {l : List (Option α)},
    (∀ o ∈ l, o.isSome) → ∃ ys, allSome l = some ys ∧ ys.length = l.length := by
  intro l
  induction l with
  | nil => intro _; exact ⟨[], rfl, rfl⟩
  | cons hd tl ih =>
    intro h
    obtain ⟨a, ha⟩ := Option.isSome_iff_exists.mp (h hd (by simp))
    obtain ⟨ys, hys, hlen⟩ := ih (fun o ho => h o (by simp [ho]))
    exact ⟨a :: ys, by simp [allSome, ha, hys], by simp [hlen]⟩

lemma urlApiRequest_signed_eq (api : CodeforcesAPI)
    (sha512hex : String → String) (t : Int) (nonce method : String)
    (kwargs : List (String × PyVal)) {key secret : String}
    (hk : api.key = some key) (hs : api.secret = some secret) :
    urlApiRequest api sha512hex t nonce method kwargs =
      getUrl (dictSet (signedKwargs api.lang t key kwargs) "apiSig"
        (.vScalar (.str (apiSigString sha512hex nonce method
          (getUrl (signedKwargs api.lang t key kwargs)) secret)))) := by
  unfold urlApiRequest signedKwargs apiSigString
  rw [hk, hs]

end Lemmas


/-- C1: for every method name, parameter mapping, key, secret, nonce and
timestamp, when both a key and a secret are configured the query built by
the request signer contains a pair `apiSig=<sig>` where `<sig>` is the
6-character nonce (drawn from lowercase letters and digits) followed by
the hex digest of `nonce + "/" + method + "?" + <canonical encoding of
all parameters including lang, time and apiKey> + "#" + secret`. -/
theorem urlApiRequest_contains_apiSig (api : CodeforcesAPI)
    (sha512hex : String → String) (t : Int) (nonce method : String)
    (kwargs : List (String × PyVal)) (key secret : String)
    (hk : api.key = some key) (hs : api.secret = some secret)
    (hlen : nonce.length = 6)
    (hchars : ∀ c ∈ nonce.data, c ∈ nonceAlphabet.data) :
    ∃ pairs : List String,
      urlApiRequest api sha512hex t nonce method kwargs =
        String.intercalate "&" pairs ∧
      ("apiSig=" ++ apiSigString sha512hex nonce method
          (getUrl (signedKwargs api.lang t key kwargs)) secret) ∈ pairs := by
  rw [urlApiRequest_signed_eq api sha512hex t nonce method kwargs hk hs]
  refine ⟨sortedStrKwargs (dictSet (signedKwargs api.lang t key kwargs) "apiSig"
      (.vScalar (.str (apiSigString sha512hex nonce method
        (getUrl (signedKwargs api.lang t key kwargs)) secret)))), rfl, ?_⟩
  unfold sortedStrKwargs
  rw [(List.perm_insertionSort strKeyLe _).mem_iff]
  apply List.mem_map.mpr
  refine ⟨("apiSig", .vScalar (.str (apiSigString sha512hex nonce method
      (getUrl (signedKwargs api.lang t key kwargs)) secret))), ?_, rfl⟩
  exact List.mem_filter.mpr ⟨mem_dictSet_self _ _ _, rfl⟩

/-- Witness for C1 at concrete inputs. -/
theorem urlApiRequest_contains_apiSig_witness :
    ∃ pairs : List String,
      urlApiRequest ⟨some "ABC", some "xyz", "en"⟩ (fun s => s) 100 "abc123"
          "user.info" [("handles", .vList [.str "tourist"])] =
        String.intercalate "&" pairs ∧
      ("apiSig=" ++ apiSigString (fun s => s) "abc123" "user.info"
          (getUrl (signedKwargs "en" 100 "ABC"
            [("handles", .vList [.str "tourist"])])) "xyz") ∈ pairs :=
  urlApiRequest_contains_apiSig ⟨some "ABC", some "xyz", "en"⟩ (fun s => s) 100
    "abc123" "user.info" [("handles", .vList [.str "tourist"])] "ABC" "xyz"
    rfl rfl (by decide) (by decide)

/-- C2: the canonical query encoder drops parameters whose value is None,
serializes a list value as the `;`-join of the string conversions of its
elements and a scalar value as its string conversion, and produces the
`&`-join of the resulting `key=value` pair strings sorted in ascending
lexicographic order by the full pair string. -/
theorem getUrl_canonical_encoding (kwargs : List (String × PyVal)) :
    (∃ pairs : List String,
      getUrl kwargs = String.intercalate "&" pairs ∧
      List.Sorted strKeyLe pairs ∧
      pairs.Perm ((kwargs.filter (fun p => !p.2.isNone)).map
        (fun p => toHttp p.1 p.2))) ∧
    (∀ k l, toHttp k (.vList l) =
      k ++ "=" ++ String.intercalate ";" (l.map pyStrScalar)) ∧
    (∀ k v, toHttp k (.vScalar v) = k ++ "=" ++ pyStrScalar v) :=
  ⟨⟨sortedStrKwargs kwargs, rfl, List.sorted_insertionSort strKeyLe _,
    List.perm_insertionSort strKeyLe _⟩,
   fun _ _ => rfl, fun _ _ => rfl⟩

/-- C3 counterexample: with key `a`, secret `b`, language `en`, method `m`
and no method parameters, the built query sorts the `apiSig` pair between
`apiKey` and `lang` instead of appending it after the canonical encoding
of the other parameters. -/
theorem urlApiRequest_apiSig_appended_counterexample :
    urlApiRequest ⟨some "a", some "b", "en"⟩ (fun _ => "H") 0 "000000" "m" [] =
      "apiKey=a&apiSig=000000H&lang=en&time=0" ∧
    urlApiRequest ⟨some "a", some "b", "en"⟩ (fun _ => "H") 0 "000000" "m" [] ≠
      getUrl (signedKwargs "en" 0 "a" []) ++ "&" ++ ("apiSig=" ++
        apiSigString (fun _ => "H") "000000" "m"
          (getUrl (signedKwargs "en" 0 "a" [])) "b") := by
  constructor
  · decide
  · decide

/-- C3 amended: the signature parameter is stored into the parameter
mapping before the final encoding, so the final query is the canonical
(sorted) encoding of all parameters including `apiSig`; the signature pair
is re-sorted together with the others rather than appended after them. -/
theorem urlApiRequest_apiSig_sorted_with_rest (api : CodeforcesAPI)
    (sha512hex : String → String) (t : Int) (nonce method : String)
    (kwargs : List (String × PyVal)) (key secret : String)
    (hk : api.key = some key) (hs : api.secret = some secret) :
    urlApiRequest api sha512hex t nonce method kwargs =
      getUrl (dictSet (signedKwargs api.lang t key kwargs) "apiSig"
        (.vScalar (.str (apiSigString sha512hex nonce method
          (getUrl (signedKwargs api.lang t key kwargs)) secret)))) :=
  urlApiRequest_signed_eq api sha512hex t nonce method kwargs hk hs

/-- Witness for the amended C3 at concrete inputs. -/
theorem urlApiRequest_apiSig_sorted_with_rest_witness :
    urlApiRequest ⟨some "a", some "b", "en"⟩ (fun _ => "H") 0 "000000" "m" [] =
      getUrl (dictSet (signedKwargs "en" 0 "a" []) "apiSig"
        (.vScalar (.str (apiSigString (fun _ => "H") "000000" "m"
          (getUrl (signedKwargs "en" 0 "a" [])) "b")))) :=
  urlApiRequest_apiSig_sorted_with_rest ⟨some "a", some "b", "en"⟩
    (fun _ => "H") 0 "000000" "m" [] "a" "b" rfl rfl

/-- C4: the canonical query encoder yields the same output on any
permutation of the input parameter entries. -/
theorem getUrl_perm_invariant (kw₁ kw₂ : List (String × PyVal))
    (hp : kw₁.Perm kw₂) : getUrl kw₁ = getUrl kw₂ := by
  unfold getUrl sortedStrKwargs
  congr 1
  refine List.eq_of_perm_of_sorted ?_ (List.sorted_insertionSort strKeyLe _)
    (List.sorted_insertionSort strKeyLe _)
  exact (List.perm_insertionSort strKeyLe _).trans
    (((hp.filter _).map _).trans (List.perm_insertionSort strKeyLe _).symm)

/-- Witness for C4 at a concrete transposition. -/
theorem getUrl_perm_invariant_witness :
    getUrl [("b", .vScalar (.int 1)), ("a", .vScalar (.int 2))] =
      getUrl [("a", .vScalar (.int 2)), ("b", .vScalar (.int 1))] :=
  getUrl_perm_invariant _ _
    (List.Perm.swap (("a", PyVal.vScalar (PyScalar.int 2)) : String × PyVal)
      ("b", PyVal.vScalar (PyScalar.int 1)) [])

/-- C5 counterexample: a Party mapping whose `members` field is present
but is not a list of mappings makes construction fail, so construction is
not total and does not fail only when the structural field is absent. -/
theorem party_init_present_field_counterexample :
    lookupLast [("members", Json.num 5)] "members" = some (Json.num 5) ∧
    Party.init (Json.obj [("members", Json.num 5)]) = none :=
  ⟨rfl, rfl⟩

/-- C5 amended: base record construction is total and non-validating —
the constructed attribute map holds exactly the entries of the JSON
mapping as raw attributes, so unknown fields are preserved and absent
fields stay absent; `Party` construction fails when the structural field
`members` is absent, and also when it is present with a value that is not
a list of mappings; when `members` is present as a list of mappings,
construction succeeds. -/
theorem record_construction_totality :
    (∀ (json : List (String × Json)) (k : String),
      lookupFirst (CodeforcesResponse.init json) k =
        (lookupLast json k).map RVal.raw) ∧
    (∀ fields : List (String × Json), lookupLast fields "members" = none →
      Party.init (Json.obj fields) = none) ∧
    (∀ (fields : List (String × Json)) (ms : List Json),
      lookupLast fields "members" = some (Json.arr ms) →
      (∀ m ∈ ms, ∃ l, m = Json.obj l) →
      (Party.init (Json.obj fields)).isSome) := by
  have hparty : ∀ fields : List (String × Json),
      Party.init (Json.obj fields) =
        match lookupLast fields "members" with
        | some mv =>
          match pyListMap Member.init mv with
          | some ms => some (dictSet (CodeforcesResponse.init fields)
              "members" (RVal.wlist ms))
          | none => none
        | none => none := fun _ => rfl
  refine ⟨lookupFirst_init, ?_, ?_⟩
  · intro fields h
    rw [hparty, h]
  · intro fields ms h hobj
    rw [hparty, h]
    have hall : ∀ o ∈ ms.map Member.init, o.isSome := by
      intro o ho
      obtain ⟨m, hm, rfl⟩ := List.mem_map.mp ho
      obtain ⟨l, rfl⟩ := hobj m hm
      simp [Member.init, objAttrs]
    obtain ⟨ys, hys, _⟩ := allSome_of_forall_isSome hall
    simp [pyListMap, pyIter, hys]

/-- Witness for the amended C5 at concrete inputs. -/
theorem record_construction_totality_witness :
    lookupFirst (CodeforcesResponse.init [("handle", Json.str "x")]) "handle" =
      some (RVal.raw (Json.str "x")) ∧
    Party.init (Json.obj [("x", Json.null)]) = none ∧
    (Party.init (Json.obj [("members", Json.arr [Json.obj []])])).isSome :=
  ⟨record_construction_totality.1 [("handle", Json.str "x")] "handle",
   record_construction_totality.2.1 [("x", Json.null)] rfl,
   record_construction_totality.2.2 [("members", Json.arr [Json.obj []])]
     [Json.obj []] rfl
     (fun m hm => ⟨[], by rw [List.mem_singleton] at hm; exact hm⟩)⟩

/-- C6: under the service contract that `user.info` returns one User
object per requested handle, a single-handle call returns a single User
record (not a one-element list) and a multi-handle call returns a list of
User records whose length equals the number of handles. -/
theorem user_info_shape (s : String) (handles : List String)
    (res₁ res : List Json)
    (h₁ : res₁.length = 1)
    (hw₁ : ∀ r ∈ res₁, (User.init r).isSome)
    (hmulti : 2 ≤ handles.length) (hcap : handles.length ≤ 10000)
    (hlen : res.length = handles.length)
    (hw : ∀ r ∈ res, (User.init r).isSome) :
    (∃ u, user_info (.inl s) res₁ = .ok (.record u)) ∧
    (∀ l, user_info (.inl s) res₁ ≠ .ok (.list l)) ∧
    (∃ us, user_info (.inr handles) res = .ok (.list us) ∧
      us.length = handles.length) := by
  obtain ⟨r, hr⟩ : ∃ r, res₁ = [r] := by
    cases res₁ with
    | nil => simp at h₁
    | cons a tl =>
      cases tl with
      | nil => exact ⟨a, rfl⟩
      | cons b tl₂ => simp at h₁
  subst hr
  obtain ⟨u, hu⟩ := Option.isSome_iff_exists.mp (hw₁ r (by simp))
  have hsingle : user_info (.inl s) [r] = .ok (.record u) := by
    have heq : user_info (.inl s) [r] =
        match User.init r with
        | some u' => .ok (.record u')
        | none => .error .wrapError := rfl
    rw [heq, hu]
  refine ⟨⟨u, hsingle⟩, ?_, ?_⟩
  · intro l hcontra
    rw [hsingle] at hcontra
    injection hcontra with h'
    exact PyRet.noConfusion h'
  · obtain ⟨a, b, tl₂, hres⟩ : ∃ a b tl₂, res = a :: b :: tl₂ := by
      cases res with
      | nil => rw [List.length_nil] at hlen; omega
      | cons a tl =>
        cases tl with
        | nil => rw [List.length_singleton] at hlen; omega
        | cons b tl₂ => exact ⟨a, b, tl₂, rfl⟩
    subst hres
    obtain ⟨ys, hys, hyslen⟩ := allSome_of_forall_isSome
      (fun o ho => by
        obtain ⟨rr, hrr, rfl⟩ := List.mem_map.mp ho
        exact hw rr hrr)
    have heq : user_info (.inr handles) (a :: b :: tl₂) =
        if handles.length > 10000 then
          .error (.typeError ("handles len is " ++ toString handles.length ++
            ".                              Maximum: 10000"))
        else
          match allSome ((a :: b :: tl₂).map User.init) with
          | some us => .ok (.list (us.map PyRet.record))
          | none => .error .wrapError := rfl
    refine ⟨ys.map PyRet.record, ?_, ?_⟩
    · rw [heq, if_neg (by omega), hys]
    · rw [List.length_map, hyslen, List.length_map]
      exact hlen

/-- Witness for C6 at concrete inputs. -/
theorem user_info_shape_witness :
    (∃ u, user_info (.inl "tourist") [Json.obj [("handle", Json.str "tourist")]] =
      .ok (.record u)) ∧
    (∀ l, user_info (.inl "tourist") [Json.obj [("handle", Json.str "tourist")]] ≠
      .ok (.list l)) ∧
    (∃ us, user_info (.inr ["DmitryH", "Fefer_Ivan"])
        [Json.obj [], Json.obj []] = .ok (.list us) ∧
      us.length = (["DmitryH", "Fefer_Ivan"] : List String).length) :=
  user_info_shape "tourist" ["DmitryH", "Fefer_Ivan"]
    [Json.obj [("handle", Json.str "tourist")]] [Json.obj [], Json.obj []]
    rfl (by decide) (by decide) (by decide) rfl (by decide)

/-- Helper: inversion of a successful `contestStandingsReturn`. -/
lemma contestStandingsReturn_ok {result : Json} {ret : PyRet}
    (h : contestStandingsReturn result = .ok ret) :
    ∃ cj pj rj c ps rs,
      jsonGet result "contest" = some cj ∧ Contest.init cj = some c ∧
      jsonGet result "problems" = some pj ∧
      pyListMap Problem.init pj = some ps ∧
      jsonGet result "rows" = some rj ∧
      pyListMap RanklistRow.init rj = some rs ∧
      ret = .list [.record c, .list (ps.map PyRet.record),
        .list (rs.map PyRet.record)] := by
  unfold contestStandingsReturn at h
  cases hcj : jsonGet result "contest" with
  | none => rw [hcj] at h; exact Except.noConfusion h
  | some cj =>
  cases hpj : jsonGet result "problems" with
  | none => rw [hcj, hpj] at h; exact Except.noConfusion h
  | some pj =>
  cases hrj : jsonGet result "rows" with
  | none => rw [hcj, hpj, hrj] at h; exact Except.noConfusion h
  | some rj =>
  rw [hcj, hpj, hrj] at h
  replace h : (match Contest.init cj, pyListMap Problem.init pj,
      pyListMap RanklistRow.init rj with
    | some c, some ps, some rs =>
      (Except.ok (PyRet.list [.record c, .list (ps.map PyRet.record),
        .list (rs.map PyRet.record)]) : Except PyError PyRet)
    | _, _, _ => .error .wrapError) = .ok ret := h
  cases hc : Contest.init cj with
  | none => rw [hc] at h; exact Except.noConfusion h
  | some c =>
  cases hps : pyListMap Problem.init pj with
  | none => rw [hc, hps] at h; exact Except.noConfusion h
  | some ps =>
  cases hrs : pyListMap RanklistRow.init rj with
  | none => rw [hc, hps, hrs] at h; exact Except.noConfusion h
  | some rs =>
  rw [hc, hps, hrs] at h
  replace h : (Except.ok (PyRet.list [.record c, .list (ps.map PyRet.record),
      .list (rs.map PyRet.record)]) : Except PyError PyRet) = .ok ret := h
  injection h with h'
  exact ⟨cj, pj, rj, c, ps, rs, rfl, hc, rfl, hps, rfl, hrs, h'.symm⟩

/-- C7 amended: every successful contest-standings call returns a
3-element Python list whose first component is a single Contest record
built from the `contest` field (not a list of Contest records), whose
second is the list of Problem records from `problems`, and whose third is
the list of RanklistRow records from `rows`. -/
theorem contest_standings_shape (contestId : Int)
    (from_row count room : Option Int)
    (handles : Option (String ⊕ List String)) (showUnofficial : Option Bool)
    (result : Json) (ret : PyRet)
    (h : contest_standings contestId from_row count handles room
      showUnofficial result = .ok ret) :
    ∃ cj pj rj c ps rs,
      jsonGet result "contest" = some cj ∧ Contest.init cj = some c ∧
      jsonGet result "problems" = some pj ∧
      pyListMap Problem.init pj = some ps ∧
      jsonGet result "rows" = some rj ∧
      pyListMap RanklistRow.init rj = some rs ∧
      ret = .list [.record c, .list (ps.map PyRet.record),
        .list (rs.map PyRet.record)] := by
  rcases handles with _ | cs
  · exact contestStandingsReturn_ok h
  · rcases cs with s | hs
    · exact contestStandingsReturn_ok h
    · have heq : contest_standings contestId from_row count (some (.inr hs))
          room showUnofficial result =
          if hs.length > 10000 then
            .error (.typeError ("handles len is " ++ toString hs.length ++
              ".                             Maximum: 10000"))
          else contestStandingsReturn result := rfl
      rw [heq] at h
      by_cases hbig : hs.length > 10000
      · rw [if_pos hbig] at h
        exact Except.noConfusion h
      · rw [if_neg hbig] at h
        exact contestStandingsReturn_ok h

/-- Witness for the amended C7 at concrete inputs. -/
theorem contest_standings_shape_witness :
    ∃ cj pj rj c ps rs,
      jsonGet (Json.obj [("contest", Json.obj []), ("problems", Json.arr []),
        ("rows", Json.arr [])]) "contest" = some cj ∧
      Contest.init cj = some c ∧
      jsonGet (Json.obj [("contest", Json.obj []), ("problems", Json.arr []),
        ("rows", Json.arr [])]) "problems" = some pj ∧
      pyListMap Problem.init pj = some ps ∧
      jsonGet (Json.obj [("contest", Json.obj []), ("problems", Json.arr []),
        ("rows", Json.arr [])]) "rows" = some rj ∧
      pyListMap RanklistRow.init rj = some rs ∧
      (PyRet.list [.record [], .list [], .list []]) =
        .list [.record c, .list (ps.map PyRet.record),
          .list (rs.map PyRet.record)] :=
  contest_standings_shape 1 none none none none none
    (Json.obj [("contest", Json.obj []), ("problems", Json.arr []),
      ("rows", Json.arr [])])
    (.list [.record [], .list [], .list []]) rfl

/-- C7 counterexample: a successful contest-standings call whose returned
first component is a single Contest record, which is not a list (of
Contest records or otherwise). -/
theorem contest_standings_first_component_counterexample :
    contest_standings 1 none none none none none
      (Json.obj [("contest", Json.obj []), ("problems", Json.arr []),
        ("rows", Json.arr [])]) =
      .ok (.list [.record [], .list [], .list []]) ∧
    ∀ l : List PyRet, (PyRet.record [] : PyRet) ≠ .list l :=
  ⟨rfl, fun _ h => PyRet.noConfusion h⟩

/-- C8: a raw RecentAction mapping with a `comment` field (a mapping) and
no `blogEntry` field constructs a record whose `comment` attribute is the
wrapped Comment record and which has no `blogEntry` attribute; the
symmetric statement holds with the two fields exchanged. -/
theorem recentAction_wraps_present_fields (fields cl bl : List (String × Json)) :
    (lookupLast fields "comment" = some (Json.obj cl) →
     lookupLast fields "blogEntry" = none →
     ∃ attrs, RecentAction.init (Json.obj fields) = some attrs ∧
       lookupFirst attrs "comment" =
         some (RVal.wrapped (CodeforcesResponse.init cl)) ∧
       lookupFirst attrs "blogEntry" = none) ∧
    (lookupLast fields "blogEntry" = some (Json.obj bl) →
     lookupLast fields "comment" = none →
     ∃ attrs, RecentAction.init (Json.obj fields) = some attrs ∧
       lookupFirst attrs "blogEntry" =
         some (RVal.wrapped (CodeforcesResponse.init bl)) ∧
       lookupFirst attrs "comment" = none) := by
  have hra : RecentAction.init (Json.obj fields) =
      match (match lookupLast fields "blogEntry" with
        | some bv =>
          match BlogEntry.init bv with
          | some b => some (dictSet (CodeforcesResponse.init fields)
              "blogEntry" (RVal.wrapped b))
          | none => none
        | none => some (CodeforcesResponse.init fields)) with
      | some a₁ =>
        match lookupLast fields "comment" with
        | some cv =>
          match Comment.init cv with
          | some c => some (dictSet a₁ "comment" (RVal.wrapped c))
          | none => none
        | none => some a₁
      | none => none := rfl
  constructor
  · intro hc hb
    refine ⟨dictSet (CodeforcesResponse.init fields) "comment"
      (RVal.wrapped (CodeforcesResponse.init cl)), ?_, ?_, ?_⟩
    · rw [hra, hb, hc]
      rfl
    · exact lookupFirst_dictSet_self _ _ _
    · rw [lookupFirst_dictSet_ne _ _
        (by decide : ("blogEntry" : String) ≠ "comment"), lookupFirst_init, hb]
      rfl
  · intro hb hc
    refine ⟨dictSet (CodeforcesResponse.init fields) "blogEntry"
      (RVal.wrapped (CodeforcesResponse.init bl)), ?_, ?_, ?_⟩
    · rw [hra, hb, hc]
      rfl
    · exact lookupFirst_dictSet_self _ _ _
    · rw [lookupFirst_dictSet_ne _ _
        (by decide : ("comment" : String) ≠ "blogEntry"), lookupFirst_init, hc]
      rfl

/-- Witness for C8 at concrete inputs. -/
theorem recentAction_wraps_present_fields_witness :
    (∃ attrs, RecentAction.init
        (Json.obj [("comment", Json.obj [("id", Json.num 1)])]) = some attrs ∧
      lookupFirst attrs "comment" =
        some (RVal.wrapped (CodeforcesResponse.init [("id", Json.num 1)])) ∧
      lookupFirst attrs "blogEntry" = none) ∧
    (∃ attrs, RecentAction.init (Json.obj [("blogEntry", Json.obj [])]) =
        some attrs ∧
      lookupFirst attrs "blogEntry" =
        some (RVal.wrapped (CodeforcesResponse.init [])) ∧
      lookupFirst attrs "comment" = none) :=
  ⟨(recentAction_wraps_present_fields
      [("comment", Json.obj [("id", Json.num 1)])] [("id", Json.num 1)] []).1
      rfl rfl,
   (recentAction_wraps_present_fields
      [("blogEntry", Json.obj [])] [] []).2 rfl rfl⟩

/-- C9: calling the recent-submissions-of-problemset endpoint with
`count = 1001` raises the validation `TypeError` regardless of the service
result (so no network request is consulted and no state is produced),
while with `count = 1000` the call never raises a validation error. -/
theorem problemset_recentStatus_count_validation :
    (∀ (problemsetName : Option String) (result : List Json),
      problemset_recentStatus 1001 problemsetName result =
        .error (.typeError "count is 1001. Maximim: 1000")) ∧
    (∀ (problemsetName : Option String) (result : List Json) (msg : String),
      problemset_recentStatus 1000 problemsetName result ≠
        .error (.typeError msg)) := by
  constructor
  · intro _ _
    rfl
  · intro pname result msg h
    have heq : problemset_recentStatus 1000 pname result =
        match allSome (result.map Submission.init) with
        | some subs => .ok (.list (subs.map PyRet.record))
        | none => .error .wrapError := rfl
    rw [heq] at h
    cases hA : allSome (result.map Submission.init) with
    | none =>
      rw [hA] at h
      replace h : (Except.error PyError.wrapError : Except PyError PyRet) =
          .error (.typeError msg) := h
      injection h with h'
      exact PyError.noConfusion h'
    | some subs =>
      rw [hA] at h
      exact Except.noConfusion h

/-- C10: when at most one of key and secret is configured, the signer
produces exactly the unauthenticated query — the canonical encoding of the
method parameters plus the language parameter, with no timestamp, key or
signature added. -/
theorem urlApiRequest_unauth_when_missing_credential (api : CodeforcesAPI)
    (sha512hex : String → String) (t : Int) (nonce method : String)
    (kwargs : List (String × PyVal))
    (hmiss : api.key = none ∨ api.secret = none) :
    urlApiRequest api sha512hex t nonce method kwargs =
      getUrl (dictSet kwargs "lang" (.vScalar (.str api.lang))) ∧
    urlApiRequest api sha512hex t nonce method kwargs =
      urlApiRequest ⟨none, none, api.lang⟩ sha512hex t nonce method kwargs := by
  obtain ⟨okey, osecret, lg⟩ := api
  cases okey with
  | none => exact ⟨rfl, rfl⟩
  | some k =>
    cases osecret with
    | none => exact ⟨rfl, rfl⟩
    | some s =>
      rcases hmiss with h | h <;> exact Option.noConfusion h

/-- Witness for C10 at concrete inputs (key configured, secret missing). -/
theorem urlApiRequest_unauth_when_missing_credential_witness :
    urlApiRequest ⟨some "k", none, "en"⟩ (fun s => s) 7 "abc123" "user.info"
        [("count", .vScalar (.int 5))] =
      getUrl (dictSet [("count", .vScalar (.int 5))] "lang"
        (.vScalar (.str "en"))) ∧
    urlApiRequest ⟨some "k", none, "en"⟩ (fun s => s) 7 "abc123" "user.info"
        [("count", .vScalar (.int 5))] =
      urlApiRequest ⟨none, none, "en"⟩ (fun s => s) 7 "abc123" "user.info"
        [("count", .vScalar (.int 5))] :=
  urlApiRequest_unauth_when_missing_credential ⟨some "k", none, "en"⟩
    (fun s => s) 7 "abc123" "user.info" [("count", .vScalar (.int 5))]
    (Or.inr rfl)

end Cfapi
